import Mathlib

/-!
Verification of the RaspberryPi voice-assistant pipeline.

Shallow embedding of the Python sources:
  - `src/xfyun_asr_stream.py`  (streaming ASR client: result reduction,
    sender loop, wait_result, on_error, create_url)
  - `src/xfyun_tts_stream.py`  (streaming TTS client: on_message chunk
    reassembly, on_error, create_url)
  - `src/xfyun_asr_manual.py`  (manual ASR client: on_error)
  - `src/vad_detector.py`      (probabilistic Silero-based endpointer)
  - `src/vad_detector_lite.py` (WebRTC-VAD endpointer with padding ring)

Machine integers are modelled as `Nat` with explicit `% 2^32` where 32-bit
overflow matters (SHA-256).  Python strings are modelled as Lean `String`
with character-list helpers mirroring Python str semantics.
-/

namespace RPiBot

/-! ## Python string helpers

`pyLen` models Python `len` on str (number of characters).
`strHasPre pre s` models Python `s.startswith(pre)`.
`listSubstr nee hay` models Python `nee in hay` (substring containment).
`pyStrip` models Python `str.strip()` (whitespace on both ends).
`pyLower` models Python `str.lower()` (ASCII case folding suffices for the
error strings inspected by the clients). -/

def pyLen (s : String) : Nat := s.toList.length

def listHasPre : List Char → List Char → Bool
  | [], _ => true
  | _ :: _, [] => false
  | a :: as, b :: bs => a == b && listHasPre as bs

def strHasPre (pre s : String) : Bool := listHasPre pre.toList s.toList

def listSubstr : List Char → List Char → Bool
  | nee, [] => nee.isEmpty
  | nee, c :: t => listHasPre nee (c :: t) || listSubstr nee t

def pyIn (nee hay : String) : Bool := listSubstr nee.toList hay.toList

def pyStrip (s : String) : String :=
  String.mk (((s.toList.dropWhile Char.isWhitespace).reverse.dropWhile
    Char.isWhitespace).reverse)

def pyLower (s : String) : String := String.mk (s.toList.map Char.toLower)

/-! ## ASR result reduction — `XFyunASRStream.on_message`, lines 121-143

The Python callback extracts `text` from the message and, when `text` is
non-empty, updates the accumulator `self.result_text`:

  if status == 2:
      if text.strip() in ['。','，','！','？','；','：','、'] or len(text.strip()) <= 1:
          pass                           # keep the accumulator
      else:
          self.result_text = text
  else:
      if not self.result_text:            self.result_text = text
      elif text.startswith(self.result_text): self.result_text = text
      elif len(text) > len(self.result_text): self.result_text = text
      else:
          if text not in self.result_text: self.result_text += text
-/

def punctMarks : List String := ["。", "，", "！", "？", "；", "：", "、"]

def asrInterim (acc text : String) : String :=
  if acc = "" then text
  else if strHasPre acc text then text
  else if pyLen acc < pyLen text then text
  else if pyIn text acc then acc
  else acc ++ text

def asrFinal (acc text : String) : String :=
  if pyStrip text ∈ punctMarks ∨ pyLen (pyStrip text) ≤ 1 then acc else text

def asrOnResult (acc : String) (status : Nat) (text : String) : String :=
  if text = "" then acc
  else if status = 2 then asrFinal acc text
  else asrInterim acc text

/-- The interim-reduction rule exactly as the claim words it: replace on
extension, replace on strictly longer text, otherwise append iff the text is
not already a substring of the accumulator. -/
def interimPolicy (acc text : String) : String :=
  if strHasPre acc text then text
  else if pyLen acc < pyLen text then text
  else if pyIn text acc then acc
  else acc ++ text

theorem listHasPre_nil (l : List Char) : listHasPre [] l = true := by
  cases l <;> rfl

theorem asrInterim_eq_policy (acc text : String) :
    asrInterim acc text = interimPolicy acc text := by
  unfold asrInterim interimPolicy
  by_cases h : acc = ""
  · subst h
    have hpre : strHasPre "" text = true := listHasPre_nil text.toList
    simp [hpre]
  · simp [h]

theorem punct_len_one (p : String) (h : p ∈ punctMarks) : pyLen p = 1 := by
  simp only [punctMarks, List.mem_cons, List.not_mem_nil, or_false] at h
  rcases h with h | h | h | h | h | h | h <;> subst h <;> decide

theorem asrFinal_eq (acc text : String) :
    asrFinal acc text = if pyLen (pyStrip text) ≤ 1 then acc else text := by
  unfold asrFinal
  by_cases h : pyLen (pyStrip text) ≤ 1
  · simp [h]
  · have hmem : ¬ pyStrip text ∈ punctMarks := fun hm => h (le_of_eq (punct_len_one _ hm))
    simp [h, hmem]

/-- C1 (counterexample): the final text `"。。"` consists only of the listed
punctuation marks, yet the final-status branch replaces the accumulator
`"你好"` with it instead of keeping the accumulator: the stripped text has
length 2, so neither guard (`in` the seven single-mark list, `len <= 1`)
fires. -/
theorem c1_counterexample :
    ("。。".toList.all fun c => c ∈ ['。', '，', '！', '？', '；', '：', '、']) = true ∧
    asrOnResult "你好" 2 "。。" = "。。" ∧ asrOnResult "你好" 2 "。。" ≠ "你好" := by
  refine ⟨by decide, by decide, by decide⟩

/-- C1 (amended): for a non-empty inbound text, an interim-status message
(status ≠ 2) updates the accumulator by the stated rule (replace when the
text extends the accumulator, replace when strictly longer, else append iff
not already a substring); a final-status message keeps the accumulator
exactly when the whitespace-stripped text has length ≤ 1 (which covers the
empty text, any single character, and each of the seven listed punctuation
marks) and otherwise replaces the accumulator — a punctuation-only text of
length ≥ 2 replaces it. -/
theorem c1_reduction (acc text : String) (status : Nat) (htext : text ≠ "") :
    (status ≠ 2 → asrOnResult acc status text = interimPolicy acc text) ∧
    asrOnResult acc 2 text = (if pyLen (pyStrip text) ≤ 1 then acc else text) := by
  constructor
  · intro hs
    unfold asrOnResult
    simp [htext, hs, asrInterim_eq_policy]
  · unfold asrOnResult
    simp [htext, asrFinal_eq]

/-- C1 (witness): instantiating the amended reduction theorem at the spec's
own example — interim `"你好吗"` replaces `"你好"`, and a bare final
punctuation mark `"。"` keeps `"你好"`. -/
theorem c1_reduction_witness :
    asrOnResult "你好" 1 "你好吗" = interimPolicy "你好" "你好吗" ∧
    asrOnResult "你好" 2 "。" = "你好" := by
  constructor
  · exact (c1_reduction "你好" "你好吗" 1 (by decide)).1 (by decide)
  · have h := (c1_reduction "你好" "。" 2 (by decide)).2
    rwa [if_pos (by decide)] at h

/-! ## Probabilistic endpointer — `VADDetector` (`src/vad_detector.py`)

The Silero model score is external to the embedding: `process_frame` is
modelled on the boolean classification `is_speech = speech_prob > threshold`
of each frame.  The state update (lines 100-118) is embedded verbatim:

  self.total_frames += 1
  if is_speech:
      self.speech_frames += 1
      self.silence_frames = 0
      if self.speech_frames >= self.min_speech_frames: self.is_speaking = True
  else:
      self.silence_frames += 1
      if self.is_speaking: self.speech_frames = 0
  should_stop = self.is_speaking and self.silence_frames >= self.min_silence_frames

`reset` (lines 51-61) derives the frame thresholds with
`ms_per_frame = window_size_samples / sample_rate * 1000` and
`int(min_*_duration_ms / ms_per_frame)`.  At the parameter points used by
the claims (512 or 480 samples at 16 kHz) both float divisions are exact or
floor to the same integer as the `Nat` divisions below
(`int(250/32.0) = 7`, `int(800/30.0) = 26`, `int(500/32.0) = 15`). -/

def msPerFrame (windowSamples sampleRate : Nat) : Nat :=
  windowSamples * 1000 / sampleRate

def minSpeechFramesOf (minSpeechMs windowSamples sampleRate : Nat) : Nat :=
  minSpeechMs / msPerFrame windowSamples sampleRate

def minSilenceFramesOf (minSilenceMs windowSamples sampleRate : Nat) : Nat :=
  minSilenceMs / msPerFrame windowSamples sampleRate

structure VADState where
  is_speaking : Bool
  speech_frames : Nat
  silence_frames : Nat
  total_frames : Nat
  deriving Repr, DecidableEq

def vadReset : VADState := ⟨false, 0, 0, 0⟩

def vadStep (minSp minSil : Nat) (s : VADState) (sp : Bool) : VADState × Bool × Bool :=
  let s1 :=
    if sp then
      let s2 : VADState :=
        { s with speech_frames := s.speech_frames + 1, silence_frames := 0,
                 total_frames := s.total_frames + 1 }
      if minSp ≤ s2.speech_frames then { s2 with is_speaking := true } else s2
    else
      let s2 : VADState :=
        { s with silence_frames := s.silence_frames + 1,
                 total_frames := s.total_frames + 1 }
      if s2.is_speaking then { s2 with speech_frames := 0 } else s2
  (s1, sp, s1.is_speaking && decide (minSil ≤ s1.silence_frames))

def vadFold (minSp minSil : Nat) (s : VADState) (l : List Bool) : VADState :=
  l.foldl (fun s b => (vadStep minSp minSil s b).1) s

def vadRunState (minSp minSil : Nat) (l : List Bool) : VADState :=
  vadFold minSp minSil vadReset l

/-- The `should_stop` outputs of a run, in frame order. -/
def vadStopsFrom (minSp minSil : Nat) (s : VADState) : List Bool → List Bool
  | [] => []
  | b :: t =>
    let r := vadStep minSp minSil s b
    r.2.2 :: vadStopsFrom minSp minSil r.1 t

def vadAnyStop (minSp minSil : Nat) (l : List Bool) : Bool :=
  (vadStopsFrom minSp minSil vadReset l).any id

/-! ## Lightweight endpointer — `VADDetectorLite` (`src/vad_detector_lite.py`)

The WebRTC classification of each frame is external, so a frame is modelled
as an abstract identifier (`Nat`, standing for its audio bytes) paired with
its boolean `is_speech` classification.  `__init__` (lines 55-59) derives
`padding_frames = int(padding_duration_ms / frame_duration_ms)` and
`silence_frames = int(min_silence_duration_ms / frame_duration_ms)`; both
divisions are modelled as `Nat` division (they floor exactly at the
parameter points used: `int(300/30) = 10`, `int(800/30) = 26`).

`collections.deque(maxlen=n)` keeps the last `n` appended elements, i.e.
appending is `(q ++ [x]).drop ((q ++ [x]).length - n)`.

The float guards of `process_frame` (lines 103-133) translate exactly at
the claims' parameters: `num_voiced > 0.5 * maxlen` is
`maxlen < 2 * num_voiced` (0.5 is a dyadic float, so this is exact for all
`maxlen`), and `num_unvoiced > 0.9 * maxlen` is
`9 * maxlen < 10 * num_unvoiced` (exact at `maxlen = 10`, where the float
product `0.9 * 10` rounds to `9.0`). -/

def litePaddingFrames (paddingMs frameMs : Nat) : Nat := paddingMs / frameMs

def liteSilenceFrames (minSilenceMs frameMs : Nat) : Nat := minSilenceMs / frameMs

structure LiteState where
  is_speaking : Bool
  triggered : Bool
  voiced_frames : List Nat
  ring : List (Nat × Bool)
  silence_counter : Nat
  total_frames : Nat
  deriving Repr, DecidableEq

def liteReset : LiteState := ⟨false, false, [], [], 0, 0⟩

def ringPush (maxlen : Nat) (q : List (Nat × Bool)) (x : Nat × Bool) : List (Nat × Bool) :=
  (q ++ [x]).drop ((q ++ [x]).length - maxlen)

def liteStep (padding silFrames : Nat) (s : LiteState) (f : Nat) (sp : Bool) :
    LiteState × Bool × Bool × Option (List Nat) :=
  let s0 : LiteState := { s with total_frames := s.total_frames + 1 }
  if s0.triggered then
    let vf := s0.voiced_frames ++ [f]
    let ring2 := ringPush padding s0.ring (f, sp)
    let numUnvoiced := (ring2.filter fun e => !e.2).length
    let sc := if 9 * padding < 10 * numUnvoiced then s0.silence_counter + 1 else 0
    if silFrames ≤ sc then
      ({ s0 with voiced_frames := vf, ring := ring2, silence_counter := sc,
                 is_speaking := false }, sp, true, some vf)
    else
      ({ s0 with voiced_frames := vf, ring := ring2, silence_counter := sc },
       sp, false, none)
  else
    let ring2 := ringPush padding s0.ring (f, sp)
    let numVoiced := (ring2.filter fun e => e.2).length
    if padding < 2 * numVoiced then
      ({ s0 with triggered := true, is_speaking := true,
                 voiced_frames := s0.voiced_frames ++ ring2.map Prod.fst, ring := [] },
       sp, false, none)
    else
      ({ s0 with ring := ring2 }, sp, false, none)

def liteFold (padding silFrames : Nat) (s : LiteState) (inputs : List (Nat × Bool)) :
    LiteState :=
  inputs.foldl (fun s i => (liteStep padding silFrames s i.1 i.2).1) s

/-- The `(should_stop, buffered_audio)` outputs of a run, in frame order. -/
def liteOutsFrom (padding silFrames : Nat) (s : LiteState) :
    List (Nat × Bool) → List (Bool × Option (List Nat))
  | [] => []
  | i :: t =>
    let r := liteStep padding silFrames s i.1 i.2
    (r.2.2.1, r.2.2.2) :: liteOutsFrom padding silFrames r.1 t

def liteAnyStop (padding silFrames : Nat) (inputs : List (Nat × Bool)) : Bool :=
  (liteOutsFrom padding silFrames liteReset inputs).any fun o => o.1

/-- C2: with `min_speech_duration_ms = 250` and 512-sample frames at 16 kHz
(32 ms), `reset` derives `min_speech_frames = int(250/32) = 7` and the
trigger check `speech_frames >= min_speech_frames` runs after the
increment, so the 7th consecutive voiced frame (224 ms < 250 ms) already
sets `is_speaking` — the claim (and the detector's own docstring, which
says speech shorter than `min_speech_duration_ms` is ignored) requires 7
voiced frames NOT to trigger.  Six frames leave it false, the seventh sets
it. -/
theorem c2_trigger_at_seven :
    minSpeechFramesOf 250 512 16000 = 7 ∧
    (vadRunState (minSpeechFramesOf 250 512 16000) (minSilenceFramesOf 500 512 16000)
      (List.replicate 6 true)).is_speaking = false ∧
    (vadRunState (minSpeechFramesOf 250 512 16000) (minSilenceFramesOf 500 512 16000)
      (List.replicate 7 true)).is_speaking = true := by
  refine ⟨rfl, by decide, by decide⟩

/-- C3: with `min_silence_duration_ms = 800` and a 30 ms frame the derived
threshold is `int(800/30) = 26`, so in the probabilistic detector the 26th
consecutive silent frame after triggering (780 ms < 800 ms) already yields
`should_stop` — the claim requires at least 27.  In the lightweight
detector (padding window 10, trigger after 6 voiced frames) the counter
only starts once the ring is all-unvoiced, so even 27 consecutive silent
frames do not stop — contradicting the claim's `27+ must stop` half. -/
theorem c3_stop_at_26 :
    minSilenceFramesOf 800 480 16000 = 26 ∧
    minSpeechFramesOf 250 480 16000 = 8 ∧
    vadAnyStop 8 26 (List.replicate 8 true ++ List.replicate 25 false) = false ∧
    vadAnyStop 8 26 (List.replicate 8 true ++ List.replicate 26 false) = true ∧
    liteSilenceFrames 800 30 = 26 ∧
    litePaddingFrames 300 30 = 10 ∧
    liteAnyStop 10 26
      (List.replicate 6 ((0 : Nat), true) ++ List.replicate 27 ((0 : Nat), false)) = false := by
  refine ⟨rfl, rfl, by decide, by decide, rfl, rfl, by decide⟩

/-! ### C4 — trigger and consecutive speech -/

/-- Length of the longest run of consecutive `true` entries (the claim's
"consecutive voiced run"). -/
def maxTrueRunAux : List Bool → Nat → Nat → Nat
  | [], cur, best => max cur best
  | true :: rest, cur, best => maxTrueRunAux rest (cur + 1) best
  | false :: rest, cur, best => maxTrueRunAux rest 0 (max cur best)

def maxTrueRun (l : List Bool) : Nat := maxTrueRunAux l 0 0

/-- C4 (counterexample): with `min_speech_frames = 7` (the derived value for
250 ms / 32 ms frames), seven voiced frames interleaved one-for-one with
silent frames trigger `is_speaking` although the longest consecutive voiced
run is a single frame: before `is_speaking` is set, a silent frame does not
reset `speech_frames` (the reset `self.speech_frames = 0` is guarded by
`if self.is_speaking`). -/
theorem c4_counterexample :
    minSpeechFramesOf 250 512 16000 = 7 ∧
    (vadRunState 7 15
      [true, false, true, false, true, false, true, false, true, false, true, false,
       true]).is_speaking = true ∧
    maxTrueRun
      [true, false, true, false, true, false, true, false, true, false, true, false,
       true] = 1 ∧ 1 < 7 := by
  refine ⟨rfl, by decide, by decide, by decide⟩

theorem vadStep_inv (minSp minSil n : Nat) (s : VADState) (b : Bool)
    (h1 : s.speech_frames ≤ n) (h2 : s.is_speaking = true → minSp ≤ n) :
    (vadStep minSp minSil s b).1.speech_frames ≤ n + (cond b 1 0) ∧
    ((vadStep minSp minSil s b).1.is_speaking = true → minSp ≤ n + (cond b 1 0)) := by
  cases b
  · by_cases hsp : s.is_speaking = true
    · simp only [vadStep, hsp, cond, Bool.false_eq_true, if_false, if_true]
      exact ⟨by omega, fun _ => by have := h2 hsp; omega⟩
    · simp only [vadStep, hsp, cond, Bool.false_eq_true, if_false]
      exact ⟨by omega, fun hh => hh.elim⟩
  · by_cases htr : minSp ≤ s.speech_frames + 1
    · simp only [vadStep, htr, cond, if_true]
      exact ⟨by omega, fun _ => by omega⟩
    · simp only [vadStep, htr, cond, if_true, if_false]
      exact ⟨by omega, fun hh => by have := h2 hh; omega⟩

theorem vadFold_inv (minSp minSil : Nat) :
    ∀ (l : List Bool) (s : VADState) (n : Nat),
      s.speech_frames ≤ n → (s.is_speaking = true → minSp ≤ n) →
      (vadFold minSp minSil s l).speech_frames ≤ n + l.count true ∧
      ((vadFold minSp minSil s l).is_speaking = true → minSp ≤ n + l.count true)
  | [], s, n, h1, h2 => by simpa [vadFold] using ⟨h1, h2⟩
  | b :: t, s, n, h1, h2 => by
    have hs := vadStep_inv minSp minSil n s b h1 h2
    have ih := vadFold_inv minSp minSil t ((vadStep minSp minSil s b).1)
      (n + cond b 1 0) hs.1 hs.2
    have hc : (b :: t).count true = t.count true + cond b 1 0 := by
      cases b <;> simp [List.count_cons]
    have hfold : vadFold minSp minSil s (b :: t)
        = vadFold minSp minSil ((vadStep minSp minSil s b).1) t := rfl
    rw [hfold, hc]
    have i1 := ih.1
    refine ⟨?_, fun hh => ?_⟩
    · generalize hk : cond b 1 0 = k at i1
      omega
    · have i2 := ih.2 hh
      generalize hk : cond b 1 0 = k at i2
      omega

/-- C4 (amended): `is_speaking` becomes true only once the cumulative
number of voiced frames processed since `reset` reaches
`min_speech_frames`; the voiced frames need not be consecutive, because a
silent frame resets `speech_frames` only when the detector is already
speaking. -/
theorem c4_cumulative_trigger (minSp minSil : Nat) (l : List Bool)
    (h : (vadRunState minSp minSil l).is_speaking = true) : minSp ≤ l.count true := by
  have := (vadFold_inv minSp minSil l vadReset 0 (by simp [vadReset])
    (by simp [vadReset])).2 h
  simpa using this

/-- C4 (witness): the amended theorem applied to the alternating
voiced/silent sequence. -/
theorem c4_cumulative_trigger_witness :
    (vadRunState 7 15
      [true, false, true, false, true, false, true, false, true, false, true, false,
       true]).is_speaking = true ∧
    7 ≤ ([true, false, true, false, true, false, true, false, true, false, true, false,
       true] : List Bool).count true :=
  ⟨by decide, c4_cumulative_trigger 7 15 _ (by decide)⟩

/-! ### C10 — pre-trigger behaviour of the lightweight detector -/

/-- The last `n` elements of a list (what a `deque(maxlen=n)` retains). -/
def lastN (n : Nat) (l : List α) : List α := l.drop (l.length - n)

theorem lastN_length_le (n : Nat) (l : List α) : (lastN n l).length ≤ n := by
  simp only [lastN, List.length_drop]
  omega

theorem lastN_of_le {n : Nat} {l : List α} (h : l.length ≤ n) : lastN n l = l := by
  simp [lastN, Nat.sub_eq_zero_of_le h]

theorem ringPush_eq_lastN (maxlen : Nat) (q : List (Nat × Bool)) (x : Nat × Bool) :
    ringPush maxlen q x = lastN maxlen (q ++ [x]) := rfl

theorem lastN_append_lastN (n : Nat) (l l2 : List α) :
    lastN n (lastN n l ++ l2) = lastN n (l ++ l2) := by
  unfold lastN
  rw [List.drop_append_eq_append_drop, List.drop_append_eq_append_drop, List.drop_drop]
  have e1 : l.length - n + ((l.drop (l.length - n) ++ l2).length - n)
      = (l ++ l2).length - n := by
    simp only [List.length_append, List.length_drop]
    omega
  have e2 : (l.drop (l.length - n) ++ l2).length - n - (l.drop (l.length - n)).length
      = (l ++ l2).length - n - l.length := by
    simp only [List.length_append, List.length_drop]
    omega
  rw [e1, e2]

theorem foldl_ringPush_lastN (p : Nat) :
    ∀ (inputs : List (Nat × Bool)) (q : List (Nat × Bool)), q.length ≤ p →
      inputs.foldl (fun r i => ringPush p r i) q = lastN p (q ++ inputs)
  | [], q, hq => by simp [lastN_of_le hq]
  | i :: t, q, hq => by
    have hstep : List.foldl (fun r i => ringPush p r i) q (i :: t)
        = List.foldl (fun r i => ringPush p r i) (ringPush p q i) t := rfl
    rw [hstep, foldl_ringPush_lastN p t (ringPush p q i)
      (by rw [ringPush_eq_lastN]; exact lastN_length_le p _),
      ringPush_eq_lastN, lastN_append_lastN]
    simp

theorem liteStep_triggered_mono (p sf : Nat) (s : LiteState) (f : Nat) (sp : Bool)
    (h : s.triggered = true) : (liteStep p sf s f sp).1.triggered = true := by
  simp only [liteStep, h, if_true]
  split_ifs <;> simp [h]

theorem liteFold_triggered_mono (p sf : Nat) :
    ∀ (inputs : List (Nat × Bool)) (s : LiteState), s.triggered = true →
      (liteFold p sf s inputs).triggered = true
  | [], _, h => h
  | i :: t, s, h =>
    liteFold_triggered_mono p sf t _ (liteStep_triggered_mono p sf s i.1 i.2 h)

theorem liteStep_untrig (p sf : Nat) (s : LiteState) (f : Nat) (sp : Bool)
    (h : s.triggered = false)
    (hres : (liteStep p sf s f sp).1.triggered = false) :
    (liteStep p sf s f sp).1 =
      { s with ring := ringPush p s.ring (f, sp),
               total_frames := s.total_frames + 1 } ∧
    (liteStep p sf s f sp).2.2.1 = false ∧ (liteStep p sf s f sp).2.2.2 = none := by
  by_cases htrig :
      p < 2 * ((ringPush p s.ring (f, sp)).filter fun e => e.2).length
  · exfalso
    simp only [liteStep, h, Bool.false_eq_true, if_false, htrig, if_true] at hres
    exact Bool.true_eq_false ▸ hres
  · simp [liteStep, h, htrig]

theorem liteFold_untrig (p sf : Nat) :
    ∀ (inputs : List (Nat × Bool)) (s : LiteState),
      s.triggered = false →
      (liteFold p sf s inputs).triggered = false →
      liteFold p sf s inputs =
        { s with ring := inputs.foldl (fun r i => ringPush p r i) s.ring,
                 total_frames := s.total_frames + inputs.length } ∧
      ((liteOutsFrom p sf s inputs).all fun o => !o.1 && o.2.isNone) = true
  | [], s, _, _ => by
    constructor
    · cases s; rfl
    · rfl
  | i :: t, s, hs, hfin => by
    have hstep : (liteStep p sf s i.1 i.2).1.triggered = false := by
      by_cases hc : (liteStep p sf s i.1 i.2).1.triggered = true
      · exact absurd (liteFold_triggered_mono p sf t _ hc) (by simpa [liteFold] using hfin)
      · simpa using hc
    obtain ⟨hform, hstop, hbuf⟩ := liteStep_untrig p sf s i.1 i.2 hs hstep
    have ih := liteFold_untrig p sf t (liteStep p sf s i.1 i.2).1 hstep
      (by simpa [liteFold] using hfin)
    constructor
    · have hfold : liteFold p sf s (i :: t)
          = liteFold p sf (liteStep p sf s i.1 i.2).1 t := rfl
      rw [hfold, ih.1, hform]
      simp only [List.foldl_cons, List.length_cons]
      have ht : s.total_frames + 1 + t.length = s.total_frames + (t.length + 1) := by
        omega
      rw [ht]
    · have houts : liteOutsFrom p sf s (i :: t)
          = ((liteStep p sf s i.1 i.2).2.2.1, (liteStep p sf s i.1 i.2).2.2.2)
            :: liteOutsFrom p sf (liteStep p sf s i.1 i.2).1 t := rfl
      rw [houts]
      simp only [List.all_cons, hstop, hbuf, Bool.not_false, Option.isNone_none,
        Bool.and_self, Bool.true_and]
      exact ih.2

/-- C10: while the ring-buffer trigger condition has never yet been met
(expressed as: the run leaves `triggered` false, which by monotonicity of
`triggered` means no prefix met it), every `process_frame` call returned
`should_stop = False` and `buffered_audio = None`, no frame was appended to
`voiced_frames`, and the state retains exactly the most recent
`padding_frames` frames in the bounded ring buffer — every earlier
pre-trigger frame has been discarded. -/
theorem c10_pretrigger (p sf : Nat) (inputs : List (Nat × Bool))
    (h : (liteFold p sf liteReset inputs).triggered = false) :
    (liteFold p sf liteReset inputs).voiced_frames = [] ∧
    (liteFold p sf liteReset inputs).is_speaking = false ∧
    (liteFold p sf liteReset inputs).ring = lastN p inputs ∧
    ((liteOutsFrom p sf liteReset inputs).all fun o => !o.1 && o.2.isNone) = true := by
  obtain ⟨hform, houts⟩ := liteFold_untrig p sf inputs liteReset rfl h
  refine ⟨?_, ?_, ?_, houts⟩
  · rw [hform]
    rfl
  · rw [hform]
    rfl
  · rw [hform]
    have := foldl_ringPush_lastN p inputs [] (by simp)
    simpa [liteReset] using this

/-- A 15-frame pre-trigger input: voiced and silent frames alternate, so no
10-frame window ever holds more than 5 voiced frames and the `> 0.5`
trigger fraction is never exceeded. -/
def c10input : List (Nat × Bool) :=
  [(1, true), (2, false), (3, true), (4, false), (5, true), (6, false), (7, true),
   (8, false), (9, true), (10, false), (11, true), (12, false), (13, true),
   (14, false), (15, true)]

/-- C10 (witness): the pre-trigger theorem evaluated on `c10input` with
`padding_frames = 10`, `silence_frames = 26`: the utterance buffer stays
empty and the ring holds exactly the last 10 frames. -/
theorem c10_pretrigger_witness :
    (liteFold 10 26 liteReset c10input).triggered = false ∧
    (liteFold 10 26 liteReset c10input).voiced_frames = [] ∧
    (liteFold 10 26 liteReset c10input).ring = lastN 10 c10input :=
  ⟨by decide, (c10_pretrigger 10 26 c10input (by decide)).1,
    (c10_pretrigger 10 26 c10input (by decide)).2.2.1⟩

/-! ## ASR sender loop — `XFyunASRStream.on_open` / `_send_frame` /
`finish_recording` (`src/xfyun_asr_stream.py`, lines 167-256)

`add_audio_frame` enqueues an audio frame, `finish_recording` enqueues the
`None` sentinel, so after K `add_audio_frame` calls and one
`finish_recording` the sender loop drains the queue
`frames ++ [None]`.  Starting from `self.status = STATUS_FIRST_FRAME` (0,
set by `__init__`/`start_recognition`) it sends each dequeued frame with
the current status, then switches the status from 0 to 1; on the `None`
sentinel it sends `(STATUS_LAST_FRAME = 2, b'')` and exits.  An envelope is
modelled by its `data.status` phase tag and its audio payload (the fixed
`common`/`business` configuration block carried only by the status-0
envelope is metadata attached to the tag). -/

def sendLoop : List (Option String) → Nat → List (Nat × String)
  | [], _ => []
  | none :: _, _ => [(2, "")]
  | some f :: rest, st => (st, f) :: sendLoop rest (if st = 0 then 1 else st)

def sessionEnvelopes (frames : List String) : List (Nat × String) :=
  sendLoop (frames.map some ++ [none]) 0

/-- C8 (counterexample): a session with zero `add_audio_frame` calls
followed by `finish_recording` sends only the status-2 envelope — no
envelope has phase `first`, so "exactly one `first` envelope" fails for
this interleaving. -/
theorem c8_counterexample :
    sessionEnvelopes [] = [(2, "")] ∧
    ¬ (sessionEnvelopes []).countP (fun e => e.1 == 0) = 1 := by
  refine ⟨rfl, by decide⟩

theorem sendLoop_cont (rest : List String) :
    sendLoop (rest.map some ++ [none]) 1 = rest.map (fun f => (1, f)) ++ [(2, "")] := by
  induction rest with
  | nil => rfl
  | cons f t ih => simpa [sendLoop] using ih

theorem sessionEnvelopes_cons (x : String) (rest : List String) :
    sessionEnvelopes (x :: rest)
      = (0, x) :: (rest.map (fun f => (1, f)) ++ [(2, "")]) := by
  simpa [sessionEnvelopes, sendLoop] using sendLoop_cont rest

/-- C8 (amended): for every interleaving with at least one
`add_audio_frame` call followed by one `finish_recording` call, the sent
envelope sequence is `(0, first frame), (1, f) for each later frame,
(2, empty)` — exactly one envelope has phase `first` (status 0), exactly
one has phase `last` (status 2), and every envelope between them has phase
`continue` (status 1). -/
theorem c8_phase_invariant (x : String) (rest : List String) :
    (sessionEnvelopes (x :: rest)).countP (fun e => e.1 == 0) = 1 ∧
    (sessionEnvelopes (x :: rest)).countP (fun e => e.1 == 2) = 1 ∧
    ∀ e ∈ ((sessionEnvelopes (x :: rest)).drop 1).dropLast, e.1 = 1 := by
  rw [sessionEnvelopes_cons]
  refine ⟨?_, ?_, ?_⟩
  · simp only [List.countP_cons, List.countP_append]
    have h0 : (rest.map fun f => (1, f)).countP (fun e => e.1 == 0) = 0 := by
      induction rest with
      | nil => rfl
      | cons f t ih => simp [List.countP_cons, ih]
    simp [h0]
  · simp only [List.countP_cons, List.countP_append]
    have h2 : (rest.map fun f => (1, f)).countP (fun e => e.1 == 2) = 0 := by
      induction rest with
      | nil => rfl
      | cons f t ih => simp [List.countP_cons, ih]
    simp [h2]
  · intro e he
    simp only [List.drop_succ_cons, List.drop_zero, List.dropLast_concat] at he
    obtain ⟨f, _, hf⟩ := List.mem_map.mp he
    simp [← hf]

/-! ## `XFyunASRStream.wait_result` (`src/xfyun_asr_stream.py`, lines 298-314)

  start_time = time.time()
  while not self.is_finished:
      if time.time() - start_time > timeout:
          self.is_finished = True
          if self.ws: self.ws.close()
          break
      time.sleep(0.1)
  return self.result_text

The loop polls the completion flag every 0.1 s; the flag and the
accumulator are written concurrently by the receiver callback, so they are
modelled as observation traces `obs i` (the value of `is_finished` read on
the i-th loop test) and `accAt i` (the value of `result_text` at that
moment).  Time is counted in deciseconds: on the i-th test the elapsed time
is i deciseconds, so the `> timeout` guard fires first at
`i = timeoutDs + 1` where `timeoutDs = 10 * timeout`.  The function has no
raising branch: it always returns the current accumulator value. -/

structure WaitOutcome where
  finished : Bool
  wsClosed : Bool
  timedOut : Bool
  value : String
  deriving Repr, DecidableEq

def waitGo (obs : Nat → Bool) (accAt : Nat → String) (limit : Nat) (hasWs : Bool) :
    Nat → Nat → WaitOutcome
  | i, 0 => ⟨true, hasWs, true, accAt i⟩
  | i, fuel + 1 =>
    if obs i then ⟨true, false, false, accAt i⟩
    else if limit < i then ⟨true, hasWs, true, accAt i⟩
    else waitGo obs accAt limit hasWs (i + 1) fuel

def wait_result (obs : Nat → Bool) (accAt : Nat → String) (timeoutDs : Nat)
    (hasWs : Bool) : WaitOutcome :=
  waitGo obs accAt timeoutDs hasWs 0 (timeoutDs + 2)

theorem waitGo_value (obs : Nat → Bool) (accAt : Nat → String) (limit : Nat)
    (hasWs : Bool) : ∀ (fuel i : Nat), ∃ j,
      (waitGo obs accAt limit hasWs i fuel).value = accAt j ∧
      (waitGo obs accAt limit hasWs i fuel).finished = true
  | 0, i => ⟨i, rfl, rfl⟩
  | fuel + 1, i => by
    by_cases h : obs i
    · exact ⟨i, by simp [waitGo, h], by simp [waitGo, h]⟩
    · by_cases hl : limit < i
      · exact ⟨i, by simp [waitGo, h, hl], by simp [waitGo, h, hl]⟩
      · have ih := waitGo_value obs accAt limit hasWs fuel (i + 1)
        simpa [waitGo, h, hl] using ih

theorem waitGo_timeout (obs : Nat → Bool) (accAt : Nat → String) (limit : Nat)
    (hasWs : Bool) : ∀ (fuel i : Nat), i + fuel = limit + 2 → i ≤ limit + 1 →
      (∀ k, k ≤ limit + 1 → obs k = false) →
      waitGo obs accAt limit hasWs i fuel = ⟨true, hasWs, true, accAt (limit + 1)⟩
  | 0, i, hfi, hle, _ => by omega
  | fuel + 1, i, hfi, hle, hobs => by
    have hoi : obs i = false := hobs i hle
    by_cases hl : limit < i
    · have hi : i = limit + 1 := by omega
      subst hi
      simp [waitGo, hoi, hl]
    · have ih := waitGo_timeout obs accAt limit hasWs fuel (i + 1)
        (by omega) (by omega) hobs
      simpa [waitGo, hoi, hl] using ih

theorem waitGo_signal (obs : Nat → Bool) (accAt : Nat → String) (limit : Nat)
    (hasWs : Bool) : ∀ (j i fuel : Nat), j + 1 ≤ fuel → i + j ≤ limit + 1 →
      (∀ k, k < j → obs (i + k) = false) → obs (i + j) = true →
      waitGo obs accAt limit hasWs i fuel = ⟨true, false, false, accAt (i + j)⟩
  | 0, i, fuel, hf, _, _, hj => by
    obtain ⟨f, rfl⟩ : ∃ f, fuel = f + 1 := ⟨fuel - 1, by omega⟩
    simp only [Nat.add_zero] at hj
    simp [waitGo, hj]
  | j + 1, i, fuel, hf, hle, hpre, hj => by
    obtain ⟨f, rfl⟩ : ∃ f, fuel = f + 1 := ⟨fuel - 1, by omega⟩
    have h0 : obs i = false := by simpa using hpre 0 (by omega)
    have hl : ¬ limit < i := by omega
    have ih := waitGo_signal obs accAt limit hasWs j (i + 1) f (by omega) (by omega)
      (fun k hk => by simpa [Nat.add_assoc, Nat.add_comm 1 k] using hpre (k + 1) (by omega))
      (by simpa [Nat.add_assoc, Nat.add_comm 1 j] using hj)
    rw [waitGo, if_neg (by simp [h0]), if_neg hl, ih]
    simp [Nat.add_assoc, Nat.add_comm 1 j]

/-- C5: `wait_result` never raises — along every observation trace it
terminates and returns a value of the accumulator with the finished flag
set.  If completion is never signalled through the timeout window, it times
out after `timeoutDs + 1` deciseconds, sets `is_finished`, force-closes the
WebSocket when one exists, and returns the partial accumulator at that
moment; if completion is first observed on test `j` within the window, it
returns the accumulator at completion without closing the socket. -/
theorem c5_wait_result (obs : Nat → Bool) (accAt : Nat → String) (timeoutDs : Nat)
    (hasWs : Bool) (j : Nat) :
    (∃ i, (wait_result obs accAt timeoutDs hasWs).value = accAt i ∧
      (wait_result obs accAt timeoutDs hasWs).finished = true) ∧
    ((∀ k, k ≤ timeoutDs + 1 → obs k = false) →
      wait_result obs accAt timeoutDs hasWs
        = ⟨true, hasWs, true, accAt (timeoutDs + 1)⟩) ∧
    (obs j = true → (∀ k, k < j → obs k = false) → j ≤ timeoutDs + 1 →
      wait_result obs accAt timeoutDs hasWs = ⟨true, false, false, accAt j⟩) := by
  refine ⟨waitGo_value obs accAt timeoutDs hasWs (timeoutDs + 2) 0, ?_, ?_⟩
  · intro hto
    exact waitGo_timeout obs accAt timeoutDs hasWs (timeoutDs + 2) 0 (by omega)
      (by omega) hto
  · intro hsig hpre hj
    have := waitGo_signal obs accAt timeoutDs hasWs j 0 (timeoutDs + 2) (by omega)
      (by omega) (fun k hk => by simpa using hpre k hk) (by simpa using hsig)
    simpa using this

/-- C5 (witness): the timeout conjunct on a trace that never signals
completion (the watchdog closes the socket and returns the partial text),
and the completion conjunct on a trace that signals on the fourth test. -/
theorem c5_wait_result_witness :
    wait_result (fun _ => false) (fun _ => "partial") 10 true
      = ⟨true, true, true, "partial"⟩ ∧
    wait_result (fun i => i == 3) (fun _ => "done") 10 true
      = ⟨true, false, false, "done"⟩ := by
  constructor
  · exact (c5_wait_result (fun _ => false) (fun _ => "partial") 10 true 0).2.1
      (fun k _ => rfl)
  · exact (c5_wait_result (fun i => i == 3) (fun _ => "done") 10 true 3).2.2 rfl
      (fun k hk => by
        have hne : k ≠ 3 := by omega
        simpa using hne) (by omega)

/-! ## Error callbacks — C7

`XFyunASRStream.on_error` (src/xfyun_asr_stream.py, 157-161):

  if self.is_finished and 'timeout' in str(error).lower(): return
  print(error)                      # surfaced

`XFyunASRManual.on_error` (src/xfyun_asr_manual.py, 213-226) has the same
guard (then additionally closes the socket when surfacing).

`XFyunTTSStream.on_error` (src/xfyun_tts_stream.py, 191-194):

  print(error)                      # surfaced unconditionally
  self.is_finished = True

Each callback is modelled as a predicate on the completion flag and the
error string: `true` iff the error is surfaced (printed) rather than
swallowed. -/

def asrStreamOnErrorSurfaced (is_finished : Bool) (error : String) : Bool :=
  !(is_finished && pyIn "timeout" (pyLower error))

def asrManualOnErrorSurfaced (is_finished : Bool) (error : String) : Bool :=
  !(is_finished && pyIn "timeout" (pyLower error))

def ttsStreamOnErrorSurfaced (_is_finished : Bool) (_error : String) : Bool :=
  true

/-- C7 (counterexample): a transport timeout delivered after completion
(`is_finished = true`) is swallowed by the ASR stream client but surfaced
by the TTS stream client, whose `on_error` has no completion check — so the
claimed policy does not hold "for every session (ASR and TTS)". -/
theorem c7_counterexample :
    asrStreamOnErrorSurfaced true "connection timeout" = false ∧
    ttsStreamOnErrorSurfaced true "connection timeout" = true := by
  refine ⟨by decide, rfl⟩

/-- C7 (amended): both ASR clients check the completion flag first and
swallow an error exactly when the session is already complete and the
lower-cased error text contains "timeout" (all other errors, and any error
before completion, are surfaced); the TTS stream client surfaces every
error unconditionally. -/
theorem c7_on_error_policy (fin : Bool) (e : String) :
    (asrStreamOnErrorSurfaced fin e = false ↔
      fin = true ∧ pyIn "timeout" (pyLower e) = true) ∧
    asrManualOnErrorSurfaced fin e = asrStreamOnErrorSurfaced fin e ∧
    ttsStreamOnErrorSurfaced fin e = true := by
  refine ⟨?_, rfl, rfl⟩
  cases fin <;> simp [asrStreamOnErrorSurfaced]

/-! ## TTS chunk reassembly — `XFyunTTSStream.on_message`
(`src/xfyun_tts_stream.py`, lines 96-171)

The callback (1) aborts on a non-zero `header.code`; (2) extracts
`(audio_data, status, seq)` from one of three JSON shapes
(`payload.audio.*`, top-level, `data.*`) — the extraction is abstracted to
the extracted triple, with `seq` carried verbatim; (3) when audio data is
present, base64-decodes it and appends it to the playback queue (and the
file buffer when saving); (4) marks the session finished and closes on
`status == 2`.  The decoded chunk is modelled by its payload string.  The
`errored` field records the protocol-error branch (non-zero header code);
no other branch sets it. -/

structure TTSMsg where
  headerCode : Option Int
  audioData : Option String
  status : Nat
  seq : Nat
  deriving Repr, DecidableEq

structure TTSState where
  queue : List String
  fileData : List String
  isFinished : Bool
  errored : Bool
  closed : Bool
  deriving Repr, DecidableEq

def ttsInit : TTSState := ⟨[], [], false, false, false⟩

def ttsOnMessage (saveToFile : Bool) (s : TTSState) (m : TTSMsg) : TTSState :=
  match m.headerCode with
  | some c =>
    if c ≠ 0 then { s with isFinished := true, errored := true, closed := true }
    else ttsProcessAudio saveToFile s m
  | none => ttsProcessAudio saveToFile s m
where
  ttsProcessAudio (saveToFile : Bool) (s : TTSState) (m : TTSMsg) : TTSState :=
    let s1 :=
      match m.audioData with
      | some a =>
        if a ≠ "" then
          { s with queue := s.queue ++ [a],
                   fileData := if saveToFile then s.fileData ++ [a] else s.fileData }
        else s
      | none => s
    if m.status = 2 then { s1 with isFinished := true, closed := true } else s1

def ttsRun (saveToFile : Bool) (msgs : List TTSMsg) : TTSState :=
  msgs.foldl (ttsOnMessage saveToFile) ttsInit

def msgBadHeader (m : TTSMsg) : Bool :=
  match m.headerCode with
  | some c => c ≠ 0
  | none => false

/-- The audio chunks a message contributes to the playback queue: none when
the header carries a non-zero code or there is no (non-empty) audio
field. -/
def msgAudio (m : TTSMsg) : Option String :=
  if msgBadHeader m then none
  else m.audioData.bind fun a => if a ≠ "" then some a else none

/-- C6 (counterexample): a stream whose sequence numbers arrive out of
order (seq 5 then seq 3, not strictly increasing) is neither rejected nor
flagged: the protocol-error field stays false and both chunks are enqueued
for playback in arrival order. -/
theorem c6_counterexample :
    (ttsRun false [⟨none, some "a", 1, 5⟩, ⟨none, some "b", 2, 3⟩]).errored = false ∧
    (ttsRun false [⟨none, some "a", 1, 5⟩, ⟨none, some "b", 2, 3⟩]).queue = ["a", "b"] := by
  refine ⟨rfl, rfl⟩

theorem ttsOnMessage_seq_irrelevant (saveToFile : Bool) (s : TTSState) (m : TTSMsg)
    (n : Nat) : ttsOnMessage saveToFile s { m with seq := n }
      = ttsOnMessage saveToFile s m := by
  cases m
  rfl

theorem ttsProcessAudio_queue (saveToFile : Bool) (s : TTSState) (hc : Option Int)
    (ad : Option String) (st sq : Nat) :
    (ttsOnMessage.ttsProcessAudio saveToFile s ⟨hc, ad, st, sq⟩).queue
      = s.queue ++ (ad.bind fun a => if a ≠ "" then some a else none).toList := by
  unfold ttsOnMessage.ttsProcessAudio
  cases ad <;> simp only [Option.bind] <;> split_ifs <;> simp_all

theorem ttsProcessAudio_errored (saveToFile : Bool) (s : TTSState) (hc : Option Int)
    (ad : Option String) (st sq : Nat) :
    (ttsOnMessage.ttsProcessAudio saveToFile s ⟨hc, ad, st, sq⟩).errored
      = s.errored := by
  unfold ttsOnMessage.ttsProcessAudio
  cases ad <;> simp only [Option.bind] <;> split_ifs <;> simp_all

theorem ttsOnMessage_queue (saveToFile : Bool) (s : TTSState) (m : TTSMsg) :
    (ttsOnMessage saveToFile s m).queue = s.queue ++ (msgAudio m).toList := by
  obtain ⟨hc, ad, st, sq⟩ := m
  cases hc with
  | none =>
    simpa [msgAudio, msgBadHeader] using ttsProcessAudio_queue saveToFile s none ad st sq
  | some c =>
    by_cases hc0 : c ≠ 0
    · simp [ttsOnMessage, msgAudio, msgBadHeader, hc0]
    · have h := ttsProcessAudio_queue saveToFile s (some c) ad st sq
      simpa [ttsOnMessage, msgAudio, msgBadHeader, hc0] using h

theorem ttsOnMessage_errored (saveToFile : Bool) (s : TTSState) (m : TTSMsg) :
    (ttsOnMessage saveToFile s m).errored = (s.errored || msgBadHeader m) := by
  obtain ⟨hc, ad, st, sq⟩ := m
  cases hc with
  | none =>
    simpa [msgBadHeader] using ttsProcessAudio_errored saveToFile s none ad st sq
  | some c =>
    by_cases hc0 : c ≠ 0
    · simp [ttsOnMessage, msgBadHeader, hc0]
    · have h := ttsProcessAudio_errored saveToFile s (some c) ad st sq
      simpa [ttsOnMessage, msgBadHeader, hc0] using h

theorem ttsRun_queue (saveToFile : Bool) :
    ∀ (msgs : List TTSMsg) (s : TTSState),
      (msgs.foldl (ttsOnMessage saveToFile) s).queue = s.queue ++ msgs.filterMap msgAudio
  | [], s => by simp
  | m :: t, s => by
    rw [List.foldl_cons, ttsRun_queue saveToFile t, ttsOnMessage_queue]
    cases h : msgAudio m <;> simp [List.filterMap_cons, h]

theorem ttsRun_errored (saveToFile : Bool) :
    ∀ (msgs : List TTSMsg) (s : TTSState),
      (msgs.foldl (ttsOnMessage saveToFile) s).errored
        = (s.errored || msgs.any msgBadHeader)
  | [], s => by simp
  | m :: t, s => by
    rw [List.foldl_cons, ttsRun_errored saveToFile t, ttsOnMessage_errored]
    simp [List.any_cons, Bool.or_assoc]

/-- C6 (amended): the client never validates sequence numbers — the
resulting session state is unchanged under arbitrary rewriting of every
`seq` field; each (non-empty) audio chunk of a message with an acceptable
header is appended to the playback queue in arrival order; and the
protocol-error branch is taken exactly when some message carries a
non-zero header code, never because of out-of-order sequence numbers. -/
theorem c6_no_seq_validation (saveToFile : Bool) (msgs : List TTSMsg)
    (f : Nat → Nat) :
    ttsRun saveToFile (msgs.map fun m => { m with seq := f m.seq })
      = ttsRun saveToFile msgs ∧
    (ttsRun saveToFile msgs).queue = msgs.filterMap msgAudio ∧
    (ttsRun saveToFile msgs).errored = msgs.any msgBadHeader := by
  refine ⟨?_, ?_, ?_⟩
  · unfold ttsRun
    generalize ttsInit = s
    induction msgs generalizing s with
    | nil => rfl
    | cons m t ih =>
      simp only [List.map_cons, List.foldl_cons, ttsOnMessage_seq_irrelevant]
      exact ih _
  · simpa using ttsRun_queue saveToFile msgs ttsInit
  · simpa using ttsRun_errored saveToFile msgs ttsInit

/-! ## URL signing — `create_url` (`src/xfyun_asr_stream.py` lines 51-86,
`src/xfyun_tts_stream.py` lines 59-94)

Both clients compute

  signature_origin = "host: {HOST}\ndate: {date}\nGET {PATH} HTTP/1.1"
  signature_sha    = base64(hmac_sha256(api_secret, signature_origin))
  authorization    = base64('api_key="...", algorithm="hmac-sha256", '
                            'headers="host date request-line", signature="..."')

and attach `{authorization, date, host}` as query parameters.  The single
wall-clock read (the RFC1123 `date`) is hoisted out as an explicit
argument; everything below it — UTF-8 encoding, SHA-256, HMAC, base64 —
is implemented concretely over byte lists (`Nat` values < 256, with 32-bit
words as `Nat` reduced `% 2^32`). -/

def w32 (n : Nat) : Nat := n % 4294967296

def rotr32 (x b : Nat) : Nat := w32 ((x >>> b) ||| (x <<< (32 - b)))

def ssig0 (x : Nat) : Nat := (rotr32 x 7) ^^^ (rotr32 x 18) ^^^ (x >>> 3)

def ssig1 (x : Nat) : Nat := (rotr32 x 17) ^^^ (rotr32 x 19) ^^^ (x >>> 10)

def bsig0 (x : Nat) : Nat := (rotr32 x 2) ^^^ (rotr32 x 13) ^^^ (rotr32 x 22)

def bsig1 (x : Nat) : Nat := (rotr32 x 6) ^^^ (rotr32 x 11) ^^^ (rotr32 x 25)

def chFn (x y z : Nat) : Nat := (x &&& y) ^^^ ((x ^^^ 4294967295) &&& z)

def majFn (x y z : Nat) : Nat := (x &&& y) ^^^ (x &&& z) ^^^ (y &&& z)

def sha256K : List Nat :=
  [1116352408, 1899447441, 3049323471, 3921009573, 961987163, 1508970993, 2453635748,
   2870763221, 3624381080, 310598401, 607225278, 1426881987, 1925078388, 2162078206,
   2614888103, 3248222580, 3835390401, 4022224774, 264347078, 604807628, 770255983,
   1249150122, 1555081692, 1996064986, 2554220882, 2821834349, 2952996808, 3210313671,
   3336571891, 3584528711, 113926993, 338241895, 666307205, 773529912, 1294757372,
   1396182291, 1695183700, 1986661051, 2177026350, 2456956037, 2730485921, 2820302411,
   3259730800, 3345764771, 3516065817, 3600352804, 4094571909, 275423344, 430227734,
   506948616, 659060556, 883997877, 958139571, 1322822218, 1537002063, 1747873779,
   1955562222, 2024104815, 2227730452, 2361852424, 2428436474, 2756734187, 3204031479,
   3329325298]

def sha256H0 : List Nat :=
  [1779033703, 3144134277, 1013904242, 2773480762, 1359893119, 2600822924, 528734635,
   1541459225]

def beBytes8 (n : Nat) : List Nat :=
  [(n >>> 56) % 256, (n >>> 48) % 256, (n >>> 40) % 256, (n >>> 32) % 256,
   (n >>> 24) % 256, (n >>> 16) % 256, (n >>> 8) % 256, n % 256]

def sha256Pad (msg : List Nat) : List Nat :=
  msg ++ [128] ++ List.replicate ((119 - msg.length % 64) % 64) 0
      ++ beBytes8 (msg.length * 8)

def bytesToWords : List Nat → List Nat
  | a :: b :: c :: d :: rest => (((a * 256 + b) * 256 + c) * 256 + d) :: bytesToWords rest
  | _ => []

def wordBytes (w : Nat) : List Nat :=
  [(w >>> 24) % 256, (w >>> 16) % 256, (w >>> 8) % 256, w % 256]

def extendRound (ws : List Nat) : List Nat :=
  let n := ws.length
  ws ++ [w32 (ws.getD (n - 16) 0 + ssig0 (ws.getD (n - 15) 0)
    + ws.getD (n - 7) 0 + ssig1 (ws.getD (n - 2) 0))]

structure SHARegs where
  a : Nat
  b : Nat
  c : Nat
  d : Nat
  e : Nat
  f : Nat
  g : Nat
  h : Nat
  deriving Repr, DecidableEq

def shaRound (s : SHARegs) (kw : Nat × Nat) : SHARegs :=
  let t1 := w32 (s.h + bsig1 s.e + chFn s.e s.f s.g + kw.1 + kw.2)
  let t2 := w32 (bsig0 s.a + majFn s.a s.b s.c)
  ⟨w32 (t1 + t2), s.a, s.b, s.c, w32 (s.d + t1), s.e, s.f, s.g⟩

def shaCompress (hs : List Nat) (block : List Nat) : List Nat :=
  let ws := extendRound^[48] block
  let init : SHARegs := ⟨hs.getD 0 0, hs.getD 1 0, hs.getD 2 0, hs.getD 3 0,
    hs.getD 4 0, hs.getD 5 0, hs.getD 6 0, hs.getD 7 0⟩
  let r := (sha256K.zip ws).foldl shaRound init
  [w32 (hs.getD 0 0 + r.a), w32 (hs.getD 1 0 + r.b), w32 (hs.getD 2 0 + r.c),
   w32 (hs.getD 3 0 + r.d), w32 (hs.getD 4 0 + r.e), w32 (hs.getD 5 0 + r.f),
   w32 (hs.getD 6 0 + r.g), w32 (hs.getD 7 0 + r.h)]

def shaBlocks : Nat → List Nat → List Nat → List Nat
  | 0, _, hs => hs
  | fuel + 1, ws, hs =>
    match ws with
    | [] => hs
    | _ :: _ => shaBlocks fuel (ws.drop 16) (shaCompress hs (ws.take 16))

def sha256 (msg : List Nat) : List Nat :=
  let ws := bytesToWords (sha256Pad msg)
  ((shaBlocks ws.length ws sha256H0).map wordBytes).flatten

def hmacSha256 (key msg : List Nat) : List Nat :=
  let k0 := if 64 < key.length then sha256 key else key
  let kPad := k0 ++ List.replicate (64 - k0.length) 0
  let inner := sha256 ((kPad.map fun b => b ^^^ 54) ++ msg)
  sha256 ((kPad.map fun b => b ^^^ 92) ++ inner)

def b64Chars : List Char :=
  ['A', 'B', 'C', 'D', 'E', 'F', 'G', 'H', 'I', 'J', 'K', 'L', 'M', 'N', 'O',
   'P', 'Q', 'R', 'S', 'T', 'U', 'V', 'W', 'X', 'Y', 'Z', 'a', 'b', 'c', 'd',
   'e', 'f', 'g', 'h', 'i', 'j', 'k', 'l', 'm', 'n', 'o', 'p', 'q', 'r', 's',
   't', 'u', 'v', 'w', 'x', 'y', 'z', '0', '1', '2', '3', '4', '5', '6', '7',
   '8', '9', '+', '/']

def b64Encode : List Nat → String
  | [] => ""
  | [a] =>
    let n := a * 65536
    String.mk [b64Chars.getD ((n >>> 18) % 64) 'A', b64Chars.getD ((n >>> 12) % 64) 'A',
      '=', '=']
  | [a, b] =>
    let n := (a * 256 + b) * 256
    String.mk [b64Chars.getD ((n >>> 18) % 64) 'A', b64Chars.getD ((n >>> 12) % 64) 'A',
      b64Chars.getD ((n >>> 6) % 64) 'A', '=']
  | a :: b :: c :: rest =>
    let n := (a * 256 + b) * 256 + c
    String.mk [b64Chars.getD ((n >>> 18) % 64) 'A', b64Chars.getD ((n >>> 12) % 64) 'A',
      b64Chars.getD ((n >>> 6) % 64) 'A', b64Chars.getD (n % 64) 'A']
      ++ b64Encode rest

def utf8Char (c : Nat) : List Nat :=
  if c < 128 then [c]
  else if c < 2048 then [192 ||| (c >>> 6), 128 ||| (c &&& 63)]
  else if c < 65536 then
    [224 ||| (c >>> 12), 128 ||| ((c >>> 6) &&& 63), 128 ||| (c &&& 63)]
  else
    [240 ||| (c >>> 18), 128 ||| ((c >>> 12) &&& 63), 128 ||| ((c >>> 6) &&& 63),
     128 ||| (c &&& 63)]

def strBytes (s : String) : List Nat := (s.toList.map fun c => utf8Char c.toNat).flatten

def signatureOrigin (host path date : String) : String :=
  "host: " ++ host ++ "\n" ++ "date: " ++ date ++ "\n" ++ "GET " ++ path ++ " HTTP/1.1"

def signatureSha (apiSecret host path date : String) : String :=
  b64Encode (hmacSha256 (strBytes apiSecret) (strBytes (signatureOrigin host path date)))

def authorizationOrigin (apiKey sig : String) : String :=
  "api_key=\"" ++ apiKey
    ++ "\", algorithm=\"hmac-sha256\", headers=\"host date request-line\", signature=\""
    ++ sig ++ "\""

/-- The `authorization` query-parameter value produced by `create_url` for
a given host, path, RFC1123 date string and key material. -/
def authorizationParam (host path date apiKey apiSecret : String) : String :=
  b64Encode (strBytes (authorizationOrigin apiKey (signatureSha apiSecret host path date)))

/-- Validation of the SHA-256 embedding against the FIPS 180 test vector
for the message `"abc"`. -/
theorem sha256_abc_vector :
    sha256 (strBytes "abc")
      = [0xba, 0x78, 0x16, 0xbf, 0x8f, 0x01, 0xcf, 0xea, 0x41, 0x41, 0x40, 0xde,
         0x5d, 0xae, 0x22, 0x23, 0xb0, 0x03, 0x61, 0xa3, 0x96, 0x17, 0x7a, 0x9c,
         0xb4, 0x10, 0xff, 0x61, 0xf2, 0x00, 0x15, 0xad] := by
  decide

/-- Validation of the base64 embedding. -/
theorem b64_hello_vector : b64Encode (strBytes "hello") = "aGVsbG8=" := by
  decide

/-- C9: the URL-signing computation is deterministic — for fixed host,
path, RFC1123 date string, api_key and api_secret (the only inputs; the
wall-clock read that produces the date is outside the computation), two
runs produce the identical `authorization` query-parameter value. -/
theorem c9_signature_deterministic (h1 h2 p1 p2 d1 d2 k1 k2 s1 s2 : String)
    (hh : h1 = h2) (hp : p1 = p2) (hd : d1 = d2) (hk : k1 = k2) (hs : s1 = s2) :
    authorizationParam h1 p1 d1 k1 s1 = authorizationParam h2 p2 d2 k2 s2 := by
  subst hh
  subst hp
  subst hd
  subst hk
  subst hs
  rfl

/-- C9 (witness): determinism instantiated at the ASR endpoint constants
with a concrete date and key material. -/
theorem c9_signature_deterministic_witness :
    authorizationParam "iat-api.xfyun.cn" "/v2/iat" "Mon, 01 Jan 2024 00:00:00 GMT"
        "demo-api-key" "demo-api-secret"
      = authorizationParam "iat-api.xfyun.cn" "/v2/iat" "Mon, 01 Jan 2024 00:00:00 GMT"
        "demo-api-key" "demo-api-secret" :=
  c9_signature_deterministic _ _ _ _ _ _ _ _ _ _ rfl rfl rfl rfl rfl

end RPiBot
